import Mathlib

/-!
Shallow embedding of `src/BackEnd/envSetter.py`, the interactive environment
configuration collector. Pure helpers (`generate_jwt_secret`, the validators)
become Lean functions; the interactive `main` becomes a deterministic function
of a scripted list of input lines, the pre-existence of the output file, the
random bytes drawn for the JWT secret, and a flag saying whether the file
write succeeds. Machine randomness (`secrets.token_hex`) is modelled by
passing the drawn bytes explicitly.
-/

namespace EnvSetter

/-- The whitespace characters stripped by Python's `str.strip()` (ASCII part). -/
def pyWhitespace (c : Char) : Bool :=
  c = ' ' || c = '\t' || c = '\n' || c = '\r' || c = '\x0b' || c = '\x0c'

/-- Python `str.strip()`: remove leading and trailing whitespace. -/
def pyStrip (s : String) : String :=
  ⟨((s.data.dropWhile pyWhitespace).reverse.dropWhile pyWhitespace).reverse⟩

/-- Python `str.lower()` restricted to ASCII (all inputs in the script are ASCII). -/
def pyLower (s : String) : String :=
  ⟨s.data.map Char.toLower⟩

/-- Python string truthiness: a string is truthy iff it is nonempty. -/
def pyTruthyStr (s : String) : Bool :=
  decide (s ≠ "")

/-! ### Secret generation (`generate_jwt_secret`, line 13-15) -/

/-- Lowercase hex digit for a value below 16, as produced by `binascii.hexlify`. -/
def hexDigitChar (n : Nat) : Char :=
  if n < 10 then Char.ofNat (48 + n) else Char.ofNat (87 + n)

/-- One byte rendered as two lowercase hex characters. -/
def byteToHex (b : Nat) : List Char :=
  [hexDigitChar (b / 16), hexDigitChar (b % 16)]

/-- `secrets.token_hex` applied to the given drawn bytes: hex-encode them. -/
def token_hex (bytes : List Nat) : String :=
  ⟨(bytes.map byteToHex).flatten⟩

/-- `generate_jwt_secret()`: `secrets.token_hex(32)` on the 32 bytes drawn from
the cryptographically secure source, which we pass explicitly. -/
def generate_jwt_secret (randomBytes : List Nat) : String :=
  token_hex randomBytes

/-- A lowercase hexadecimal character. -/
def isLowerHexDigit (c : Char) : Bool :=
  ('0' ≤ c && c ≤ '9') || ('a' ≤ c && c ≤ 'f')

/-! ### Python `int()` parsing, for `validate_port` (line 24-30) -/

/-- Numeric value of an ASCII digit character. -/
def digitVal (c : Char) : Nat := c.toNat - 48

/-- Parse the digit body of a Python `int()` literal after the first digit has
been consumed into `acc`: digits, with single underscores allowed only between
digits. -/
def parsePyDigitsAux (acc : Nat) : List Char → Option Nat
  | [] => some acc
  | c :: rest =>
    if c.isDigit then parsePyDigitsAux (acc * 10 + digitVal c) rest
    else if c = '_' then
      match rest with
      | c2 :: rest2 =>
        if c2.isDigit then parsePyDigitsAux (acc * 10 + digitVal c2) rest2 else none
      | [] => none
    else none

/-- Parse a nonempty digit sequence (with legal underscores); the first
character must be a digit. -/
def parsePyDigits : List Char → Option Nat
  | [] => none
  | c :: rest => if c.isDigit then parsePyDigitsAux (digitVal c) rest else none

/-- Python `int(s)`: strip surrounding whitespace, allow one leading sign,
then a digit sequence with single underscores between digits; `none` models
the `ValueError`. -/
def pyIntParse (s : String) : Option Int :=
  let cs := (((s.data.dropWhile pyWhitespace).reverse.dropWhile pyWhitespace).reverse)
  match cs with
  | '+' :: rest => (parsePyDigits rest).map (fun n => (n : Int))
  | '-' :: rest => (parsePyDigits rest).map (fun n => -(n : Int))
  | _ => (parsePyDigits cs).map (fun n => (n : Int))

/-- `validate_port`: `int(port)` must succeed and the value must lie in
`[1, 65535]`; a `ValueError` yields `False`. -/
def validate_port (port : String) : Bool :=
  match pyIntParse port with
  | some n => decide (1 ≤ n) && decide (n ≤ 65535)
  | none => false

/-- Python `str.isdigit()` restricted to ASCII: nonempty and all digits. -/
def pyIsDigit (s : String) : Bool :=
  !s.data.isEmpty && s.data.all Char.isDigit

/-! ### Email validation (`validate_email`, line 18-21)

The regex is `^[a-zA-Z0-9._%+-]+@[a-zA-Z0-9.-]+\.[a-zA-Z]{2,}$`, applied with
`re.match` (anchored at the start; `$` matches at the end of the string or
just before one final newline). -/

/-- Character class `[a-zA-Z0-9._%+-]` of the local part. -/
def isLocalChar (c : Char) : Bool :=
  c.isAlpha || c.isDigit || c = '.' || c = '_' || c = '%' || c = '+' || c = '-'

/-- Character class `[a-zA-Z0-9.-]` of the domain part. -/
def isDomainChar (c : Char) : Bool :=
  c.isAlpha || c.isDigit || c = '.' || c = '-'

/-- Remove one final newline if present: the positions where `$` can match. -/
def stripTrailingNewline (cs : List Char) : List Char :=
  match cs.getLast? with
  | some c => if c = '\n' then cs.dropLast else cs
  | none => cs

/-- Match `[a-zA-Z0-9.-]+\.[a-zA-Z]{2,}` against the whole of `cs`: the
top-level-domain part follows the last dot, since it may not contain a dot. -/
def matchEmailTail (cs : List Char) : Bool :=
  let t := (cs.reverse.takeWhile (fun c => c != '.')).reverse
  match cs.reverse.dropWhile (fun c => c != '.') with
  | [] => false
  | _ :: dRev =>
    let d := dRev.reverse
    !d.isEmpty && d.all isDomainChar && t.all Char.isAlpha && decide (2 ≤ t.length)

/-- `validate_email`: the regex match. The `@` consumed by the pattern is the
first `@` of the string because the local-part class excludes `@`. -/
def validate_email (s : String) : Bool :=
  let cs := stripTrailingNewline s.data
  let l := cs.takeWhile (fun c => c != '@')
  match cs.dropWhile (fun c => c != '@') with
  | [] => false
  | _ :: rest => !l.isEmpty && l.all isLocalChar && matchEmailTail rest

/-- Declarative reading of the email regex: some decomposition of the string
into local part, `@`, domain part, dot, top-level domain, and an admissible
end-of-match tail, satisfies all the character-class constraints. -/
def emailPattern (s : String) : Prop :=
  ∃ l d t tail, s.data = l ++ '@' :: (d ++ '.' :: t) ++ tail ∧
    l ≠ [] ∧ (∀ c ∈ l, isLocalChar c = true) ∧
    d ≠ [] ∧ (∀ c ∈ d, isDomainChar c = true) ∧
    (∀ c ∈ t, c.isAlpha = true) ∧ 2 ≤ t.length ∧ (tail = [] ∨ tail = ['\n'])

/-- A "domain suffix": somewhere in the string, a dot immediately followed by
at least two ASCII letters. -/
def hasDomainSuffix (s : String) : Prop :=
  ∃ pre t post, s.data = pre ++ '.' :: t ++ post ∧ 2 ≤ t.length ∧
    ∀ c ∈ t, c.isAlpha = true

/-! ### URL validation (`validate_url`, line 33-36): `^https?://[^\s]+$` -/

/-- `validate_url`: scheme `http` or `https`, then `://`, then a nonempty run
of non-whitespace characters reaching the end of the match. -/
def validate_url (s : String) : Bool :=
  let cs := stripTrailingNewline s.data
  let check : List Char → Bool := fun rest =>
    !rest.isEmpty && rest.all (fun c => !pyWhitespace c)
  if cs.take 8 = "https://".data then check (cs.drop 8)
  else if cs.take 7 = "http://".data then check (cs.drop 7)
  else false

/-! ### Prompt loops (`get_input` line 39-53, `get_yes_no` line 56-66)

Standard input is modelled as a list of the lines the operator types; a prompt
loop consumes lines until one is accepted. `none` means the script ran out of
lines before any was accepted (the real loop would then block forever, so a
terminating run never hits this case). -/

/-- The value a single response line yields in `get_input`: strip it, and when
a truthy default exists substitute it for empty input. -/
def promptValue (default : Option String) (line : String) : String :=
  let s := pyStrip line
  match default with
  | some d => if d ≠ "" then (if s = "" then d else s) else s
  | none => s

/-- `get_input`: read lines until the (stripped, defaulted) value passes the
validator; `validator = none` models passing no validator, in which case the
first line is accepted. -/
def get_input (default : Option String) (validator : Option (String → Bool)) :
    List String → Option (String × List String)
  | [] => none
  | line :: rest =>
    let user_input := promptValue default line
    match validator with
    | some f =>
      if f user_input then some (user_input, rest)
      else get_input default validator rest
    | none => some (user_input, rest)

/-- `get_yes_no`: strip and lowercase the response, substitute the default on
empty input, return `true` on `y`/`yes`, `false` on `n`/`no`, and re-prompt on
anything else. -/
def get_yes_no (default : String) : List String → Option (Bool × List String)
  | [] => none
  | line :: rest =>
    let response := pyLower (pyStrip line)
    let response := if response = "" then default else response
    if response = "y" || response = "yes" then some (true, rest)
    else if response = "n" || response = "no" then some (false, rest)
    else get_yes_no default rest

/-- The validator of a manually entered JWT secret: `lambda x: len(x) >= 32`. -/
def jwtSecretValidator (x : String) : Bool :=
  decide (32 ≤ x.length)

/-- The validator of `NODE_ENV`: `x in ['development', 'production', 'test']`. -/
def nodeEnvValidator (x : String) : Bool :=
  x = "development" || x = "production" || x = "test"

/-- The validator of `BCRYPT_SALT_ROUNDS`:
`x.isdigit() and 10 <= int(x) <= 20` (short-circuiting, so `int` runs only on
all-digit strings, where it succeeds). -/
def bcryptValidator (x : String) : Bool :=
  pyIsDigit x &&
    (match pyIntParse x with
     | some n => decide (10 ≤ n) && decide (n ≤ 20)
     | none => false)

/-- The validator of the rate-limit fields: `x.isdigit()`. -/
def digitsValidator (x : String) : Bool :=
  pyIsDigit x

/-! ### The collected configuration record and `main` (line 69-268) -/

/-- The flat mapping collected by `main`; every field is a string, and an
empty `DYNAMODB_ENDPOINT` records that no local endpoint was configured. -/
structure Config where
  JWT_SECRET : String
  JWT_EXPIRES_IN : String
  JWT_REFRESH_EXPIRES_IN : String
  JWT_ISSUER : String
  JWT_AUDIENCE : String
  AWS_ACCESS_KEY_ID : String
  AWS_SECRET_ACCESS_KEY : String
  AWS_REGION : String
  NODE_ENV : String
  PORT : String
  FRONTEND_URL : String
  BCRYPT_SALT_ROUNDS : String
  RATE_LIMIT_WINDOW_MS : String
  RATE_LIMIT_MAX_REQUESTS : String
  AUTH_RATE_LIMIT_MAX : String
  ALLOWED_ORIGINS : String
  DYNAMODB_ENDPOINT : String
deriving DecidableEq

/-- The database prompt of `main` (line 204-211): ask for a local DynamoDB
endpoint; answering no records the empty string. -/
def askDynamoEndpoint (is : List String) : Option (String × List String) :=
  match get_yes_no "n" is with
  | none => none
  | some (true, is1) =>
    get_input (some "http://localhost:8000") (some validate_url) is1
  | some (false, is1) => some ("", is1)

/-- The prompts of `main` after the JWT secret (line 99-212), in source
order, threading the remaining script. -/
def collectRest (secret : String) (is : List String) : Option (Config × List String) :=
  match get_input (some "30m") none is with
  | none => none
  | some (expires, is) =>
  match get_input (some "7d") none is with
  | none => none
  | some (refresh, is) =>
  match get_input (some "class-registration-app") none is with
  | none => none
  | some (issuer, is) =>
  match get_input (some "class-registration-users") none is with
  | none => none
  | some (audience, is) =>
  match get_input none none is with
  | none => none
  | some (awsKey, is) =>
  match get_input none none is with
  | none => none
  | some (awsSecretKey, is) =>
  match get_input (some "us-east-1") none is with
  | none => none
  | some (region, is) =>
  match get_input (some "development") (some nodeEnvValidator) is with
  | none => none
  | some (nodeEnv, is) =>
  match get_input (some "3000") (some validate_port) is with
  | none => none
  | some (port, is) =>
  match get_input (some "http://localhost:3001") (some validate_url) is with
  | none => none
  | some (frontend, is) =>
  match get_input (some "14") (some bcryptValidator) is with
  | none => none
  | some (bcrypt, is) =>
  match get_input (some "900000") (some digitsValidator) is with
  | none => none
  | some (rateWindow, is) =>
  match get_input (some "100") (some digitsValidator) is with
  | none => none
  | some (rateMax, is) =>
  match get_input (some "5") (some digitsValidator) is with
  | none => none
  | some (authRateMax, is) =>
  match get_input (some "http://localhost:3001,http://localhost:3000") none is with
  | none => none
  | some (origins, is) =>
  match askDynamoEndpoint is with
  | none => none
  | some (dynamo, is) =>
    some (⟨secret, expires, refresh, issuer, audience, awsKey, awsSecretKey,
           region, nodeEnv, port, frontend, bcrypt, rateWindow, rateMax,
           authRateMax, origins, dynamo⟩, is)

/-- The collection phase of `main` (line 84-212): the JWT secret is either the
auto-generated one (`genSecret`, the hex encoding of the drawn bytes) or a
manually entered string of at least 32 characters, then all other prompts. -/
def collectConfig (genSecret : String) (is : List String) :
    Option (Config × List String) :=
  match get_yes_no "y" is with
  | none => none
  | some (true, is1) => collectRest genSecret is1
  | some (false, is1) =>
    match get_input none (some jwtSecretValidator) is1 with
    | none => none
    | some (secret, is2) => collectRest secret is2

/-- The lines always written to the `.env` file (line 218-247), in source
order; a `f.write("...\n")` contributes one line, a `f.write("\n")` an empty
line. -/
def baseLines (c : Config) : List String :=
  ["# JWT Configuration",
   "JWT_SECRET=" ++ c.JWT_SECRET,
   "JWT_EXPIRES_IN=" ++ c.JWT_EXPIRES_IN,
   "JWT_REFRESH_EXPIRES_IN=" ++ c.JWT_REFRESH_EXPIRES_IN,
   "JWT_ISSUER=" ++ c.JWT_ISSUER,
   "JWT_AUDIENCE=" ++ c.JWT_AUDIENCE,
   "",
   "# AWS Configuration",
   "AWS_ACCESS_KEY_ID=" ++ c.AWS_ACCESS_KEY_ID,
   "AWS_SECRET_ACCESS_KEY=" ++ c.AWS_SECRET_ACCESS_KEY,
   "AWS_REGION=" ++ c.AWS_REGION,
   "",
   "# Application Configuration",
   "NODE_ENV=" ++ c.NODE_ENV,
   "PORT=" ++ c.PORT,
   "FRONTEND_URL=" ++ c.FRONTEND_URL,
   "",
   "# Security Configuration",
   "BCRYPT_SALT_ROUNDS=" ++ c.BCRYPT_SALT_ROUNDS,
   "RATE_LIMIT_WINDOW_MS=" ++ c.RATE_LIMIT_WINDOW_MS,
   "RATE_LIMIT_MAX_REQUESTS=" ++ c.RATE_LIMIT_MAX_REQUESTS,
   "AUTH_RATE_LIMIT_MAX=" ++ c.AUTH_RATE_LIMIT_MAX,
   "",
   "# CORS Configuration",
   "ALLOWED_ORIGINS=" ++ c.ALLOWED_ORIGINS,
   ""]

/-- All lines written to the `.env` file: the database section is appended
only when `DYNAMODB_ENDPOINT` is truthy (line 249-252). -/
def envLines (c : Config) : List String :=
  baseLines c ++
    (if c.DYNAMODB_ENDPOINT ≠ "" then
      ["# Database Configuration",
       "DYNAMODB_ENDPOINT=" ++ c.DYNAMODB_ENDPOINT,
       ""]
     else [])

/-- The observable outcome of one run of `main`: cancelled at the overwrite
prompt (nothing written, `main` returns `None`), file written successfully
(`main` returns `0`), or write failed (`main` returns `1`). -/
inductive MainResult where
  | cancelled : MainResult
  | written : List String → MainResult
  | writeFailed : MainResult
deriving DecidableEq

/-- The write phase of `main` (line 216-264) after collection. -/
def finishRun (genSecret : String) (writeOk : Bool) (is : List String) :
    Option MainResult :=
  match collectConfig genSecret is with
  | none => none
  | some (c, _) => some (if writeOk then .written (envLines c) else .writeFailed)

/-- One run of `main`: check the existing file and possibly abort, collect,
write. `envExists` models `env_path.exists()`, `writeOk` models whether the
`open`/`write` calls succeed. -/
def runMain (envExists : Bool) (genSecret : String) (writeOk : Bool)
    (is : List String) : Option MainResult :=
  if envExists then
    match get_yes_no "n" is with
    | none => none
    | some (false, _) => some .cancelled
    | some (true, rest) => finishRun genSecret writeOk rest
  else finishRun genSecret writeOk is

/-- The process exit status of each outcome: `exit(main())` maps the `None`
returned on cancellation to status 0, and the returned `0`/`1` to themselves. -/
def mainExitCode : MainResult → Nat
  | .cancelled => 0
  | .written _ => 0
  | .writeFailed => 1

/-! ## Theorems -/

/-- Two strings whose first characters differ are different strings. -/
theorem ne_of_head {s t : String} (h : s.data.head? ≠ t.data.head?) : s ≠ t :=
  fun e => h (by rw [e])

/-- Variant of `ne_of_head` taking the two computed first characters. -/
theorem ne_of_head_vals (x y : Option Char) {s t : String}
    (hs : s.data.head? = x) (ht : t.data.head? = y) (hxy : x ≠ y) : s ≠ t :=
  ne_of_head (by rw [hs, ht]; exact hxy)

/-- C2: `validate_port` accepts a string exactly when Python `int()` parses it
to a value in `[1, 65535]` (so any string that is not an integer literal, or
whose value is out of range, is rejected). -/
theorem c2_validate_port_iff (p : String) :
    validate_port p = true ↔
      ∃ n : Int, pyIntParse p = some n ∧ 1 ≤ n ∧ n ≤ 65535 := by
  unfold validate_port
  cases h : pyIntParse p with
  | none => simp
  | some n => simp [h, and_assoc]

/-- C6: when the output file exists and the operator answers `n` to the
overwrite prompt, the run is cancelled — nothing is ever written (the
`written` outcome is not produced, so the existing file is untouched) — and
the process exit status is 0. -/
theorem c6_overwrite_declined (g : String) (w : Bool) (rest : List String) :
    runMain true g w ("n" :: rest) = some MainResult.cancelled ∧
    mainExitCode MainResult.cancelled = 0 :=
  ⟨rfl, rfl⟩

/-- The prompt loop accepts a response whose (stripped, defaulted) value
passes the validator. -/
theorem get_input_accept (d : Option String) (v : String → Bool)
    (line : String) (rest : List String)
    (h : v (promptValue d line) = true) :
    get_input d (some v) (line :: rest) = some (promptValue d line, rest) := by
  simp [get_input, h]

/-- The prompt loop re-prompts on a response whose value the validator
rejects. -/
theorem get_input_reject (d : Option String) (v : String → Bool)
    (line : String) (rest : List String)
    (h : v (promptValue d line) = false) :
    get_input d (some v) (line :: rest) = get_input d (some v) rest := by
  simp [get_input, h]

/-- C7: the prompt loop substitutes the default on empty input, accepts the
value exactly when the validator does (or when there is none), re-prompts on a
rejected value, and on the scripted responses `99999` then `8080` to the
server-port prompt it rejects the first, re-prompts once, and returns
`8080`. -/
theorem c7_get_input_loop (d : Option String) (v : String → Bool)
    (line : String) (rest : List String) :
    (v (promptValue d line) = true →
      get_input d (some v) (line :: rest) = some (promptValue d line, rest)) ∧
    (v (promptValue d line) = false →
      get_input d (some v) (line :: rest) = get_input d (some v) rest) ∧
    (get_input d none (line :: rest) = some (promptValue d line, rest)) ∧
    (validate_port "99999" = false ∧ validate_port "8080" = true ∧
      get_input (some "3000") (some validate_port) ["99999", "8080"] =
        some ("8080", [])) := by
  exact ⟨get_input_accept d v line rest, get_input_reject d v line rest,
    rfl, by decide, by decide, by decide⟩

/-- Witness for C7 at the scripted server-port session. -/
theorem c7_get_input_loop_witness :
    get_input (some "3000") (some validate_port) ["99999", "8080"] =
      get_input (some "3000") (some validate_port) ["8080"] ∧
    get_input (some "3000") (some validate_port) ["8080"] =
      some ("8080", []) := by
  constructor
  · exact (c7_get_input_loop (some "3000") validate_port "99999" ["8080"]).2.1
      (by decide)
  · exact (c7_get_input_loop (some "3000") validate_port "8080" []).1 (by decide)

/-- The value a response line yields in `get_yes_no`: strip, lowercase, and
substitute the default on empty input. -/
def defaultedResponse (d : String) (line : String) : String :=
  let r := pyLower (pyStrip line)
  if r = "" then d else r

/-- One unfolding of `get_yes_no` on a response line. -/
theorem get_yes_no_cons (d line : String) (rest : List String) :
    get_yes_no d (line :: rest) =
      (if defaultedResponse d line = "y" || defaultedResponse d line = "yes"
       then some (true, rest)
       else if defaultedResponse d line = "n" || defaultedResponse d line = "no"
       then some (false, rest)
       else get_yes_no d rest) := rfl

/-- C9: the yes/no prompt answers `true` on (case-insensitive, stripped)
`y`/`yes`, `false` on `n`/`no`, substitutes the default on empty input (via
`defaultedResponse`), and re-prompts on anything else. -/
theorem c9_get_yes_no (d line : String) (rest : List String) :
    (defaultedResponse d line = "y" ∨ defaultedResponse d line = "yes" →
      get_yes_no d (line :: rest) = some (true, rest)) ∧
    (defaultedResponse d line = "n" ∨ defaultedResponse d line = "no" →
      get_yes_no d (line :: rest) = some (false, rest)) ∧
    (defaultedResponse d line ∉ (["y", "yes", "n", "no"] : List String) →
      get_yes_no d (line :: rest) = get_yes_no d rest) := by
  refine ⟨fun h => ?_, fun h => ?_, fun h => ?_⟩
  · rw [get_yes_no_cons]; rcases h with h | h <;> rw [h] <;> rfl
  · rw [get_yes_no_cons]; rcases h with h | h <;> rw [h] <;> rfl
  · simp only [List.mem_cons, List.not_mem_nil, or_false, not_or] at h
    rw [get_yes_no_cons]
    simp [h.1, h.2.1, h.2.2.1, h.2.2.2]

/-- Witness for C9: a mixed-case `yes` with surrounding blanks, an empty
response falling back to the default `n`, and a junk response re-prompting. -/
theorem c9_get_yes_no_witness :
    get_yes_no "y" [" YeS "] = some (true, []) ∧
    get_yes_no "n" [""] = some (false, []) ∧
    get_yes_no "y" ["maybe"] = get_yes_no "y" [] := by
  refine ⟨?_, ?_, ?_⟩
  · exact (c9_get_yes_no "y" " YeS " []).1 (Or.inr rfl)
  · exact (c9_get_yes_no "n" "" []).2.1 (Or.inl rfl)
  · exact (c9_get_yes_no "y" "maybe" []).2.2 (by decide)

/-- The prompts after the JWT secret never change it: the configuration
returned by `collectRest` carries the secret it was given. -/
theorem collectRest_secret {secret : String} {is : List String} {c : Config}
    {r : List String} (h : collectRest secret is = some (c, r)) :
    c.JWT_SECRET = secret := by
  unfold collectRest at h
  repeat' split at h
  any_goals exact Option.noConfusion h
  cases h
  rfl

/-- C10: when the operator declines automatic generation, the manual-secret
prompt accepts a (stripped) response iff it has at least 32 characters,
re-prompting on shorter ones, and therefore any `JWT_SECRET` collected on the
manual path — hence the one written to the file — has length at least 32. -/
theorem c10_manual_secret :
    (∀ is v rest, get_input none (some jwtSecretValidator) is = some (v, rest) →
      32 ≤ v.length) ∧
    (∀ line rest, (pyStrip line).length < 32 →
      get_input none (some jwtSecretValidator) (line :: rest) =
        get_input none (some jwtSecretValidator) rest) ∧
    (∀ line rest, 32 ≤ (pyStrip line).length →
      get_input none (some jwtSecretValidator) (line :: rest) =
        some (pyStrip line, rest)) ∧
    (∀ g is is1 c r, get_yes_no "y" is = some (false, is1) →
      collectConfig g is = some (c, r) → 32 ≤ c.JWT_SECRET.length) := by
  have accepted : ∀ is v rest,
      get_input none (some jwtSecretValidator) is = some (v, rest) →
      32 ≤ v.length := by
    intro is
    induction is with
    | nil => intro v rest h; simp [get_input] at h
    | cons line rest ih =>
      intro v r h
      by_cases hv : jwtSecretValidator (promptValue none line) = true
      · rw [get_input_accept none jwtSecretValidator line rest hv] at h
        obtain ⟨rfl, rfl⟩ : promptValue none line = v ∧ rest = r := by
          simpa using h
        exact of_decide_eq_true hv
      · rw [get_input_reject none jwtSecretValidator line rest
          (Bool.not_eq_true _ ▸ hv)] at h
        exact ih v r h
  refine ⟨accepted, fun line rest h => ?_, fun line rest h => ?_, ?_⟩
  · exact get_input_reject none jwtSecretValidator line rest
      (by simpa [jwtSecretValidator] using Nat.not_le.mpr h)
  · exact get_input_accept none jwtSecretValidator line rest
      (by simpa [jwtSecretValidator, promptValue] using h)
  · intro g is is1 c r hno h
    have hc : (match get_input none (some jwtSecretValidator) is1 with
        | none => none
        | some (secret, is2) => collectRest secret is2) = some (c, r) := by
      rw [← h]; unfold collectConfig; rw [hno]
    cases hsec : get_input none (some jwtSecretValidator) is1 with
    | none => rw [hsec] at hc; exact absurd hc (by simp)
    | some vr =>
      obtain ⟨v, is2⟩ := vr
      rw [hsec] at hc
      have hc' : collectRest v is2 = some (c, r) := hc
      rw [collectRest_secret hc']
      exact accepted is1 v is2 hsec

/-- Witness for C10: a 10-character secret is re-prompted, a 32-character one
is accepted, and its length bound follows from the acceptance. -/
theorem c10_manual_secret_witness :
    get_input none (some jwtSecretValidator)
      ["tooshort", "abcdefghijklmnopqrstuvwxyz012345"] =
      get_input none (some jwtSecretValidator)
        ["abcdefghijklmnopqrstuvwxyz012345"] ∧
    get_input none (some jwtSecretValidator)
      ["abcdefghijklmnopqrstuvwxyz012345"] =
      some ("abcdefghijklmnopqrstuvwxyz012345", []) ∧
    32 ≤ ("abcdefghijklmnopqrstuvwxyz012345" : String).length := by
  refine ⟨?_, ?_, ?_⟩
  · exact c10_manual_secret.2.1 "tooshort"
      ["abcdefghijklmnopqrstuvwxyz012345"] (by decide)
  · exact c10_manual_secret.2.2.1 "abcdefghijklmnopqrstuvwxyz012345" []
      (by decide)
  · exact c10_manual_secret.1 ["abcdefghijklmnopqrstuvwxyz012345"]
      "abcdefghijklmnopqrstuvwxyz012345" [] (by decide)

/-- C3: in a complete session accepting every offered default (automatic
secret generation included) and supplying the two AWS credentials, the file
written is exactly the documented fields with their documented defaults, in
the documented order, with section headers and a blank line after each
section; the generated secret `g` appears as `JWT_SECRET`. -/
theorem c3_defaults_session (g : String) :
    runMain false g true
      ["", "", "", "", "", "AKIAEXAMPLEKEY", "examplesecret",
       "", "", "", "", "", "", "", "", "", ""] =
      some (MainResult.written
        ["# JWT Configuration",
         "JWT_SECRET=" ++ g,
         "JWT_EXPIRES_IN=30m",
         "JWT_REFRESH_EXPIRES_IN=7d",
         "JWT_ISSUER=class-registration-app",
         "JWT_AUDIENCE=class-registration-users",
         "",
         "# AWS Configuration",
         "AWS_ACCESS_KEY_ID=AKIAEXAMPLEKEY",
         "AWS_SECRET_ACCESS_KEY=examplesecret",
         "AWS_REGION=us-east-1",
         "",
         "# Application Configuration",
         "NODE_ENV=development",
         "PORT=3000",
         "FRONTEND_URL=http://localhost:3001",
         "",
         "# Security Configuration",
         "BCRYPT_SALT_ROUNDS=14",
         "RATE_LIMIT_WINDOW_MS=900000",
         "RATE_LIMIT_MAX_REQUESTS=100",
         "AUTH_RATE_LIMIT_MAX=5",
         "",
         "# CORS Configuration",
         "ALLOWED_ORIGINS=http://localhost:3001,http://localhost:3000",
         ""]) := rfl

/-- C5: with the write failing, a completed run is either cancelled or ends in
`writeFailed`; with the write succeeding it is cancelled or `written`; and the
exit statuses are 0 for cancellation (Python `exit(None)`), 0 for success, and
1 for a write failure — never an unhandled fault. -/
theorem c5_exit_codes :
    (∀ e g is r, runMain e g false is = some r →
      r = MainResult.cancelled ∨ r = MainResult.writeFailed) ∧
    (∀ e g is r, runMain e g true is = some r →
      r = MainResult.cancelled ∨ ∃ ls, r = MainResult.written ls) ∧
    mainExitCode MainResult.cancelled = 0 ∧
    (∀ ls, mainExitCode (MainResult.written ls) = 0) ∧
    mainExitCode MainResult.writeFailed = 1 := by
  have hfin : ∀ g w is r, finishRun g w is = some r →
      (w = false → r = MainResult.writeFailed) ∧
      (w = true → ∃ ls, r = MainResult.written ls) := by
    intro g w is r h
    unfold finishRun at h
    split at h
    · simp at h
    · constructor <;> intro hw <;> subst hw <;> simp at h <;> simp [← h]
  refine ⟨?_, ?_, rfl, fun ls => rfl, rfl⟩
  · intro e g is r h
    unfold runMain at h
    split at h
    · split at h
      · simp at h
      · simp at h; exact Or.inl h.symm
      · exact Or.inr ((hfin g false _ r h).1 rfl)
    · exact Or.inr ((hfin g false _ r h).1 rfl)
  · intro e g is r h
    unfold runMain at h
    split at h
    · split at h
      · simp at h
      · simp at h; exact Or.inl h.symm
      · exact Or.inr ((hfin g true _ r h).2 rfl)
    · exact Or.inr ((hfin g true _ r h).2 rfl)

/-- Witness for C5: a cancelled run under a failing writer, and a full run
under a failing writer ending in `writeFailed`. -/
theorem c5_exit_codes_witness :
    (MainResult.cancelled = MainResult.cancelled ∨
      MainResult.cancelled = MainResult.writeFailed) ∧
    (MainResult.writeFailed = MainResult.cancelled ∨
      MainResult.writeFailed = MainResult.writeFailed) ∧
    (MainResult.cancelled = MainResult.cancelled ∨
      ∃ ls, MainResult.cancelled = MainResult.written ls) := by
  refine ⟨?_, ?_, ?_⟩
  · exact c5_exit_codes.1 true "x" ["n"] MainResult.cancelled rfl
  · exact c5_exit_codes.1 false "x"
      ["", "", "", "", "", "ak", "sk", "", "", "", "", "", "", "", "", "", ""]
      MainResult.writeFailed rfl
  · exact c5_exit_codes.2.1 true "x" ["no"] MainResult.cancelled rfl

/-- C4: answering `n` at the local-DynamoDB prompt records the empty
endpoint; the written lines contain the `Database Configuration` header and a
`DYNAMODB_ENDPOINT` line exactly when a (truthy) endpoint was configured, and
with the empty endpoint the output is exactly the base sections. -/
theorem c4_database_section :
    (∀ rest, askDynamoEndpoint ("n" :: rest) = some ("", rest)) ∧
    (∀ c : Config, c.DYNAMODB_ENDPOINT = "" →
      envLines c = baseLines c ∧
      "# Database Configuration" ∉ envLines c ∧
      ∀ v, ("DYNAMODB_ENDPOINT=" ++ v) ∉ envLines c) ∧
    (∀ c : Config, c.DYNAMODB_ENDPOINT ≠ "" →
      "# Database Configuration" ∈ envLines c ∧
      ("DYNAMODB_ENDPOINT=" ++ c.DYNAMODB_ENDPOINT) ∈ envLines c) := by
  refine ⟨fun rest => rfl, fun c h => ?_, fun c h => ?_⟩
  · have hbase : envLines c = baseLines c := by simp [envLines, h]
    refine ⟨hbase, ?_, ?_⟩
    · intro hm
      rw [hbase] at hm
      simp only [baseLines, List.mem_cons, List.not_mem_nil, or_false] at hm
      rcases hm with h | h | h | h | h | h | h | h | h | h | h | h | h |
        h | h | h | h | h | h | h | h | h | h | h | h | h
      all_goals first
        | exact absurd h (by decide)
        | exact absurd h (ne_of_head_vals (some '#') (some 'J') rfl rfl (by decide))
        | exact absurd h (ne_of_head_vals (some '#') (some 'A') rfl rfl (by decide))
        | exact absurd h (ne_of_head_vals (some '#') (some 'N') rfl rfl (by decide))
        | exact absurd h (ne_of_head_vals (some '#') (some 'P') rfl rfl (by decide))
        | exact absurd h (ne_of_head_vals (some '#') (some 'F') rfl rfl (by decide))
        | exact absurd h (ne_of_head_vals (some '#') (some 'B') rfl rfl (by decide))
        | exact absurd h (ne_of_head_vals (some '#') (some 'R') rfl rfl (by decide))
        | exact absurd h (ne_of_head_vals (some 'D') (some '#') rfl rfl (by decide))
        | exact absurd h (ne_of_head_vals (some 'D') (none) rfl rfl (by decide))
        | exact absurd h (ne_of_head_vals (some 'D') (some 'J') rfl rfl (by decide))
        | exact absurd h (ne_of_head_vals (some 'D') (some 'A') rfl rfl (by decide))
        | exact absurd h (ne_of_head_vals (some 'D') (some 'N') rfl rfl (by decide))
        | exact absurd h (ne_of_head_vals (some 'D') (some 'P') rfl rfl (by decide))
        | exact absurd h (ne_of_head_vals (some 'D') (some 'F') rfl rfl (by decide))
        | exact absurd h (ne_of_head_vals (some 'D') (some 'B') rfl rfl (by decide))
        | exact absurd h (ne_of_head_vals (some 'D') (some 'R') rfl rfl (by decide))
    · intro v hm
      rw [hbase] at hm
      simp only [baseLines, List.mem_cons, List.not_mem_nil, or_false] at hm
      rcases hm with h | h | h | h | h | h | h | h | h | h | h | h | h |
        h | h | h | h | h | h | h | h | h | h | h | h | h
      all_goals first
        | exact absurd h (by decide)
        | exact absurd h (ne_of_head_vals (some '#') (some 'J') rfl rfl (by decide))
        | exact absurd h (ne_of_head_vals (some '#') (some 'A') rfl rfl (by decide))
        | exact absurd h (ne_of_head_vals (some '#') (some 'N') rfl rfl (by decide))
        | exact absurd h (ne_of_head_vals (some '#') (some 'P') rfl rfl (by decide))
        | exact absurd h (ne_of_head_vals (some '#') (some 'F') rfl rfl (by decide))
        | exact absurd h (ne_of_head_vals (some '#') (some 'B') rfl rfl (by decide))
        | exact absurd h (ne_of_head_vals (some '#') (some 'R') rfl rfl (by decide))
        | exact absurd h (ne_of_head_vals (some 'D') (some '#') rfl rfl (by decide))
        | exact absurd h (ne_of_head_vals (some 'D') (none) rfl rfl (by decide))
        | exact absurd h (ne_of_head_vals (some 'D') (some 'J') rfl rfl (by decide))
        | exact absurd h (ne_of_head_vals (some 'D') (some 'A') rfl rfl (by decide))
        | exact absurd h (ne_of_head_vals (some 'D') (some 'N') rfl rfl (by decide))
        | exact absurd h (ne_of_head_vals (some 'D') (some 'P') rfl rfl (by decide))
        | exact absurd h (ne_of_head_vals (some 'D') (some 'F') rfl rfl (by decide))
        | exact absurd h (ne_of_head_vals (some 'D') (some 'B') rfl rfl (by decide))
        | exact absurd h (ne_of_head_vals (some 'D') (some 'R') rfl rfl (by decide))
  · constructor <;> simp [envLines, h, baseLines]

/-- Witness for C4: a configuration with no endpoint produces no database
lines; one with the default local endpoint produces both. -/
theorem c4_database_section_witness :
    ("# Database Configuration" ∉
      envLines ⟨"s", "30m", "7d", "i", "a", "k", "sk", "r", "development",
        "3000", "f", "14", "900000", "100", "5", "o", ""⟩) ∧
    ("# Database Configuration" ∈
      envLines ⟨"s", "30m", "7d", "i", "a", "k", "sk", "r", "development",
        "3000", "f", "14", "900000", "100", "5", "o",
        "http://localhost:8000"⟩) ∧
    (("DYNAMODB_ENDPOINT=" ++ "http://localhost:8000") ∈
      envLines ⟨"s", "30m", "7d", "i", "a", "k", "sk", "r", "development",
        "3000", "f", "14", "900000", "100", "5", "o",
        "http://localhost:8000"⟩) := by
  refine ⟨?_, ?_, ?_⟩
  · exact (c4_database_section.2.1 _ rfl).2.1
  · exact (c4_database_section.2.2 _ (by decide)).1
  · exact (c4_database_section.2.2 _ (by decide)).2

/-- The hex digits produced for values below 16 are lowercase hex characters. -/
theorem hexDigitChar_isHex : ∀ n, n < 16 → isLowerHexDigit (hexDigitChar n) = true := by
  decide

/-- `hexDigitChar` is injective on values below 16. -/
theorem hexDigitChar_inj :
    ∀ a, a < 16 → ∀ b, b < 16 → hexDigitChar a = hexDigitChar b → a = b := by
  decide

/-- The concatenated hex pairs of a byte list are twice as many characters as
there are bytes. -/
theorem flatten_hex_length :
    ∀ bs : List Nat, ((bs.map byteToHex).flatten).length = 2 * bs.length
  | [] => rfl
  | b :: bs => by
    simp only [List.map_cons, List.flatten_cons, List.length_append, byteToHex,
      List.length_cons, List.length_nil, flatten_hex_length bs]
    omega

/-- The hex encoding of a byte list is twice as long as the list. -/
theorem token_hex_length (bytes : List Nat) :
    (token_hex bytes).length = 2 * bytes.length := by
  have h : (token_hex bytes).length = ((bytes.map byteToHex).flatten).length := rfl
  rw [h, flatten_hex_length]

/-- Every character of the hex encoding of bytes is a lowercase hex digit. -/
theorem token_hex_chars :
    ∀ bytes : List Nat, (∀ x ∈ bytes, x < 256) →
      ∀ c ∈ (token_hex bytes).data, isLowerHexDigit c = true
  | [], _, c, hc => by simp [token_hex] at hc
  | b :: bs, hb, c, hc => by
    have hb0 : b < 256 := hb b (List.mem_cons_self b bs)
    simp only [token_hex, List.map_cons, List.flatten_cons, byteToHex,
      List.cons_append, List.nil_append, List.mem_cons] at hc
    rcases hc with rfl | rfl | hc
    · exact hexDigitChar_isHex _ ((Nat.div_lt_iff_lt_mul (by norm_num)).mpr hb0)
    · exact hexDigitChar_isHex _ (Nat.mod_lt _ (by norm_num))
    · exact token_hex_chars bs (fun x hx => hb x (List.mem_cons_of_mem _ hx)) c hc

/-- Distinct byte lists of equal length have distinct hex encodings. -/
theorem token_hex_inj :
    ∀ b1 b2 : List Nat, (∀ x ∈ b1, x < 256) → (∀ x ∈ b2, x < 256) →
      b1.length = b2.length → token_hex b1 = token_hex b2 → b1 = b2
  | [], [], _, _, _, _ => rfl
  | [], b :: bs, _, _, hlen, _ => by simp at hlen
  | a :: as, [], _, _, hlen, _ => by simp at hlen
  | a :: as, b :: bs, h1, h2, hlen, heq => by
    have ha : a < 256 := h1 a (List.mem_cons_self a as)
    have hb : b < 256 := h2 b (List.mem_cons_self b bs)
    have heq' : (token_hex (a :: as)).data = (token_hex (b :: bs)).data := by
      rw [heq]
    simp only [token_hex, List.map_cons, List.flatten_cons, byteToHex,
      List.cons_append, List.nil_append, List.cons.injEq] at heq'
    obtain ⟨e1, e2, e3⟩ := heq'
    have hdiv : a / 16 = b / 16 :=
      hexDigitChar_inj _ ((Nat.div_lt_iff_lt_mul (by norm_num)).mpr ha)
        _ ((Nat.div_lt_iff_lt_mul (by norm_num)).mpr hb) e1
    have hmod : a % 16 = b % 16 :=
      hexDigitChar_inj _ (Nat.mod_lt _ (by norm_num))
        _ (Nat.mod_lt _ (by norm_num)) e2
    have hab : a = b := by
      have hda := Nat.div_add_mod a 16
      have hdb := Nat.div_add_mod b 16
      omega
    have htail : as = bs :=
      token_hex_inj as bs (fun x hx => h1 x (List.mem_cons_of_mem _ hx))
        (fun x hx => h2 x (List.mem_cons_of_mem _ hx))
        (by simpa using hlen) (congrArg String.mk e3)
    rw [hab, htail]

/-- C1: on any 32-byte draw from the random source the generated JWT secret is
a string of exactly 64 lowercase hexadecimal characters (256 bits), and two
calls whose random draws differ — as consecutive draws from a cryptographically
secure source do, probabilistically — never produce the same string. -/
theorem c1_jwt_secret (b1 b2 : List Nat)
    (h1 : b1.length = 32 ∧ ∀ x ∈ b1, x < 256)
    (h2 : b2.length = 32 ∧ ∀ x ∈ b2, x < 256) :
    (generate_jwt_secret b1).length = 64 ∧
    (∀ c ∈ (generate_jwt_secret b1).data, isLowerHexDigit c = true) ∧
    (b1 ≠ b2 → generate_jwt_secret b1 ≠ generate_jwt_secret b2) := by
  refine ⟨?_, token_hex_chars b1 h1.2, fun hne he => ?_⟩
  · rw [generate_jwt_secret, token_hex_length, h1.1]
  · exact hne (token_hex_inj b1 b2 h1.2 h2.2 (h1.1.trans h2.1.symm) he)

/-- Witness for C1 on two concrete distinct 32-byte draws. -/
theorem c1_jwt_secret_witness :
    (generate_jwt_secret (List.replicate 32 0)).length = 64 ∧
    generate_jwt_secret (List.replicate 32 0) ≠
      generate_jwt_secret (List.replicate 32 255) := by
  have h := c1_jwt_secret (List.replicate 32 0) (List.replicate 32 255)
    ⟨by decide, by decide⟩ ⟨by decide, by decide⟩
  exact ⟨h.1, h.2.2 (by decide)⟩

/-- `takeWhile`/`dropWhile` split a list at the first element failing the
predicate. -/
theorem takeWhile_all_append {p : Char → Bool} :
    ∀ l : List Char, (∀ c ∈ l, p c = true) → ∀ x : Char, p x = false →
      ∀ xs : List Char,
      (l ++ x :: xs).takeWhile p = l ∧ (l ++ x :: xs).dropWhile p = x :: xs
  | [], _, x, hx, xs => by
    simp [List.takeWhile_cons, List.dropWhile_cons, hx]
  | a :: l, h, x, hx, xs => by
    have ha : p a = true := h a (List.mem_cons_self a l)
    have ih := takeWhile_all_append l
      (fun c hc => h c (List.mem_cons_of_mem _ hc)) x hx xs
    simp [List.takeWhile_cons, List.dropWhile_cons, ha, ih.1, ih.2]

/-- The head of a nonempty `dropWhile` result fails the predicate. -/
theorem dropWhile_head_false {p : Char → Bool} :
    ∀ {l : List Char} {x : Char} {xs : List Char},
      l.dropWhile p = x :: xs → p x = false
  | [], _, _, h => by simp at h
  | a :: l, x, xs, h => by
    rw [List.dropWhile_cons] at h
    by_cases ha : p a
    · rw [if_pos ha] at h
      exact dropWhile_head_false h
    · rw [if_neg ha] at h
      cases h
      simpa using ha

/-- `stripTrailingNewline` on an empty list. -/
theorem stripTrailingNewline_none {cs : List Char} (h : cs.getLast? = none) :
    stripTrailingNewline cs = cs := by
  unfold stripTrailingNewline
  rw [h]

/-- `stripTrailingNewline` keeps a list whose last character is not a
newline. -/
theorem stripTrailingNewline_some_ne {cs : List Char} {c : Char}
    (h : cs.getLast? = some c) (hc : c ≠ '\n') : stripTrailingNewline cs = cs := by
  unfold stripTrailingNewline
  rw [h]
  simp [hc]

/-- `stripTrailingNewline` drops a final newline. -/
theorem stripTrailingNewline_concat (cs : List Char) :
    stripTrailingNewline (cs ++ ['\n']) = cs := by
  unfold stripTrailingNewline
  rw [List.getLast?_concat]
  simp [List.dropLast_concat]

/-- Every list is its stripped form followed by some (dropped) tail. -/
theorem stripTrailingNewline_post (cs : List Char) :
    ∃ post, cs = stripTrailingNewline cs ++ post := by
  cases hgl : cs.getLast? with
  | none => exact ⟨[], by rw [stripTrailingNewline_none hgl]; simp⟩
  | some c0 =>
    by_cases hc0 : c0 = '\n'
    · subst hc0
      refine ⟨['\n'], ?_⟩
      have hd := List.dropLast_append_getLast? '\n' hgl
      calc cs = cs.dropLast ++ ['\n'] := hd.symm
        _ = stripTrailingNewline cs ++ ['\n'] := by
            rw [show stripTrailingNewline cs = cs.dropLast from by
              unfold stripTrailingNewline; rw [hgl]; simp]
    · exact ⟨[], by rw [stripTrailingNewline_some_ne hgl hc0]; simp⟩

/-- A character of the stripped list is a character of the original list. -/
theorem stripTrailingNewline_subset {cs : List Char} {c : Char}
    (hc : c ∈ stripTrailingNewline cs) : c ∈ cs := by
  unfold stripTrailingNewline at hc
  split at hc
  · split at hc
    · exact (List.dropLast_sublist _).mem hc
    · exact hc
  · exact hc

/-- A string matching the declarative email pattern passes `validate_email`. -/
theorem emailPattern_imp (s : String) (h : emailPattern s) :
    validate_email s = true := by
  obtain ⟨l, d, t, tail, hdata, hl, hlc, hd, hdc, hta, htl, htail⟩ := h
  have hlne : ∀ c ∈ l, (c != '@') = true := by
    intro c hc
    have hloc := hlc c hc
    simp only [bne_iff_ne, ne_eq]
    intro e
    subst e
    exact absurd hloc (by decide)
  have htne : ∀ c ∈ t.reverse, (c != '.') = true := by
    intro c hc
    have halp := hta c (List.mem_reverse.mp hc)
    simp only [bne_iff_ne, ne_eq]
    intro e
    subst e
    exact absurd halp (by decide)
  have ht_ne : t ≠ [] := by
    intro e
    rw [e] at htl
    simp at htl
  have hsplit := takeWhile_all_append l hlne '@' (by decide) (d ++ '.' :: t)
  have hmid : stripTrailingNewline s.data = l ++ '@' :: (d ++ '.' :: t) := by
    rcases htail with rfl | rfl
    · obtain ⟨t', c, ht'⟩ : ∃ t' c, t = t' ++ [c] := by
        rcases (List.eq_nil_or_concat t).resolve_left ht_ne with ⟨L, b, hb⟩
        exact ⟨L, b, by simpa [List.concat_eq_append] using hb⟩
      have hcmem : c ∈ t := by rw [ht']; simp
      have hca := hta c hcmem
      have hcn : c ≠ '\n' := by
        intro e
        subst e
        exact absurd hca (by decide)
      have hform : s.data = (l ++ '@' :: (d ++ '.' :: t')) ++ [c] := by
        rw [hdata, ht']
        simp
      have hlast : s.data.getLast? = some c := by
        rw [hform]
        exact List.getLast?_concat _
      rw [stripTrailingNewline_some_ne hlast hcn, hdata]
      simp
    · have hform : s.data = (l ++ '@' :: (d ++ '.' :: t)) ++ ['\n'] := hdata
      rw [hform, stripTrailingNewline_concat]
  simp only [validate_email, hmid, hsplit.1, hsplit.2]
  rw [Bool.and_eq_true, Bool.and_eq_true]
  refine ⟨⟨?_, List.all_eq_true.mpr hlc⟩, ?_⟩
  · cases l with
    | nil => exact absurd rfl hl
    | cons a l' => rfl
  · have hrev : (d ++ '.' :: t).reverse = t.reverse ++ '.' :: d.reverse := by
      simp
    have hsplit2 := takeWhile_all_append t.reverse htne '.' (by decide) d.reverse
    simp only [matchEmailTail, hrev, hsplit2.1, hsplit2.2, List.reverse_reverse]
    rw [Bool.and_eq_true, Bool.and_eq_true, Bool.and_eq_true]
    refine ⟨⟨⟨?_, List.all_eq_true.mpr hdc⟩, List.all_eq_true.mpr hta⟩,
      decide_eq_true htl⟩
    cases d with
    | nil => exact absurd rfl hd
    | cons a d' => rfl

/-- A string without `@` fails `validate_email`. -/
theorem no_at_imp (s : String) (h : '@' ∉ s.data) : validate_email s = false := by
  have hdw : (stripTrailingNewline s.data).dropWhile (fun c => c != '@') = [] := by
    rw [List.dropWhile_eq_nil_iff]
    intro x hx
    simp only [bne_iff_ne, ne_eq]
    intro e
    subst e
    exact h (stripTrailingNewline_subset hx)
  simp [validate_email, hdw]

/-- A string passing `validate_email` contains a dot immediately followed by
at least two ASCII letters. -/
theorem valid_imp_suffix (s : String) (h : validate_email s = true) :
    hasDomainSuffix s := by
  obtain ⟨post, hpost⟩ := stripTrailingNewline_post s.data
  simp only [validate_email] at h
  cases hdw : (stripTrailingNewline s.data).dropWhile (fun c => c != '@') with
  | nil => rw [hdw] at h; simp at h
  | cons a rest =>
    rw [hdw] at h
    simp only [Bool.and_eq_true] at h
    obtain ⟨-, hm⟩ := h
    simp only [matchEmailTail] at hm
    cases hdw2 : rest.reverse.dropWhile (fun c => c != '.') with
    | nil => rw [hdw2] at hm; simp at hm
    | cons x dRev =>
      rw [hdw2] at hm
      simp only [Bool.and_eq_true, decide_eq_true_eq] at hm
      obtain ⟨⟨⟨-, -⟩, htall⟩, htlen⟩ := hm
      have hx : x = '.' := by
        have hxf := dropWhile_head_false hdw2
        simpa using hxf
      subst hx
      have hsplit : rest.reverse.takeWhile (fun c => c != '.') ++ '.' :: dRev =
          rest.reverse := by
        rw [← hdw2]
        exact List.takeWhile_append_dropWhile _ _
      obtain ⟨tld, htld⟩ :
          ∃ tld, (rest.reverse.takeWhile (fun c => c != '.')).reverse = tld :=
        ⟨_, rfl⟩
      rw [htld] at htlen htall
      have h2 := congrArg List.reverse hsplit
      rw [List.reverse_append, List.reverse_cons, List.reverse_reverse,
        htld] at h2
      have hrest : rest = dRev.reverse ++ '.' :: tld := by
        rw [← h2]
        simp
      have hsplit0 : (stripTrailingNewline s.data).takeWhile (fun c => c != '@') ++
          a :: rest = stripTrailingNewline s.data := by
        rw [← hdw]
        exact List.takeWhile_append_dropWhile _ _
      refine ⟨(stripTrailingNewline s.data).takeWhile (fun c => c != '@') ++
        a :: dRev.reverse, tld, post, ?_,
        htlen, List.all_eq_true.mp htall⟩
      calc s.data = stripTrailingNewline s.data ++ post := hpost
        _ = ((stripTrailingNewline s.data).takeWhile (fun c => c != '@') ++
              a :: rest) ++ post := by rw [hsplit0]
        _ = _ := by rw [hrest]; simp

/-- C8: every string matching the email regex (declaratively decomposed)
passes `validate_email`; every string lacking an `@`, and every string lacking
a domain suffix (a dot followed by at least two letters), fails it. -/
theorem c8_validate_email :
    (∀ s, emailPattern s → validate_email s = true) ∧
    (∀ s : String, '@' ∉ s.data → validate_email s = false) ∧
    (∀ s : String, ¬hasDomainSuffix s → validate_email s = false) := by
  refine ⟨emailPattern_imp, no_at_imp, fun s hns => ?_⟩
  cases hv : validate_email s with
  | false => rfl
  | true => exact absurd (valid_imp_suffix s hv) hns

/-- Witness for C8: a pattern-matching address is accepted; a string without
`@` and a string without a domain suffix are rejected. -/
theorem c8_validate_email_witness :
    validate_email "user@example.com" = true ∧
    validate_email "userexample.com" = false ∧
    validate_email "user@example" = false := by
  refine ⟨?_, ?_, ?_⟩
  · exact c8_validate_email.1 "user@example.com"
      ⟨"user".data, "example".data, "com".data, [],
        by decide, by decide, by decide, by decide, by decide, by decide,
        by decide, Or.inl rfl⟩
  · exact c8_validate_email.2.1 "userexample.com" (by decide)
  · refine c8_validate_email.2.2 "user@example" (fun hsuf => ?_)
    obtain ⟨pre, t, post, he, -, -⟩ := hsuf
    have hdot : '.' ∈ "user@example".data := by
      rw [he]
      simp
    exact absurd hdot (by decide)

end EnvSetter
